import Mathlib

/-!
Verification development for the attendance-entry reconciliation flow of the
Teachers-Portal repository (the `AttendancePage` component).

Modelling conventions, matching the JavaScript source:
  * JavaScript objects keyed by student-id strings are modelled as ordered
    association lists `List (String × α)`; `objSet` writes a key in place when
    it exists (preserving its position) and appends otherwise, which is exactly
    the insertion-order semantics of JS object assignment, and `objGet` is
    property access.
  * An absent `status` or `notes` field is identified with the empty string:
    every read of these fields in the source goes through a truthiness test
    (`!data.status`, `data.status &&`, `attendance[id]?.status`) or a
    default (`data.notes || null`, `...?.notes || ''`, `record.notes || ''`),
    under which `undefined`, `null` and `''` are indistinguishable.
  * The truthiness test on `existingRecords[studentId]` is `jsTruthyStr`.
  * Remote-store interaction is modelled by explicit result oracles
    (`Except` for fetches, `Bool`-valued oracles for insert/update calls) and
    by the emitted list of `DbCall`s; `window.confirm` answers and toast
    messages are explicit parameters/outputs.
-/

/-- An editable attendance entry: pending status and notes for one student. -/
structure Entry where
  status : String
  notes : String
deriving DecidableEq

/-- A row of the `students` table as selected by the roster query
(`id, student_number, first_name, last_name`) together with the columns the
query filters on (`class_id`, `is_active`). -/
structure StudentRow where
  id : String
  student_number : String
  first_name : String
  last_name : String
  class_id : String
  is_active : Bool
deriving DecidableEq

/-- A class as used by the component (only `id` and `name` are read by the
operations under verification). -/
structure ClassRow where
  id : String
  name : String
deriving DecidableEq

/-- A row of the `attendance_records` table
(`id, student_id, status, notes` are selected; `class_id` and
`attendance_date` are the columns the query filters on). `notes` is nullable. -/
structure AttendanceRow where
  id : String
  student_id : String
  class_id : String
  attendance_date : String
  status : String
  notes : Option String
deriving DecidableEq

/-- The `recordData` object built in `handleSaveAttendance` for an insert. -/
structure RecordData where
  student_id : String
  class_id : String
  teacher_id : String
  attendance_date : String
  status : String
  notes : Option String
deriving DecidableEq

/-- An element of `recordsToUpdate` in `handleSaveAttendance`:
`{ id: existingRecords[studentId], ...recordData }`. -/
structure UpdateRecord where
  id : String
  student_id : String
  class_id : String
  teacher_id : String
  attendance_date : String
  status : String
  notes : Option String
deriving DecidableEq

/-- JS object property read: the value at a key, if present. -/
def objGet {α : Type} : List (String × α) → String → Option α
  | [], _ => none
  | p :: rest, k => if p.1 = k then some p.2 else objGet rest k

/-- JS object property assignment: overwrite in place when the key exists
(keeping insertion order), append otherwise. -/
def objSet {α : Type} : List (String × α) → String → α → List (String × α)
  | [], k, v => [(k, v)]
  | p :: rest, k, v => if p.1 = k then (k, v) :: rest else p :: objSet rest k v

/-- JS truthiness of an optional string: `undefined`, `null` and `''` are
falsy, every other string truthy. -/
def jsTruthyStr (o : Option String) : Bool := o.getD "" != ""

/-- The `recordData` literal of `handleSaveAttendance` (`notes: data.notes || null`). -/
def recordDataOf (classId teacherId date sid : String) (e : Entry) : RecordData :=
  { student_id := sid
    class_id := classId
    teacher_id := teacherId
    attendance_date := date
    status := e.status
    notes := if e.notes = "" then none else some e.notes }

/-- The object pushed onto `recordsToUpdate`: record id plus the same data. -/
def updateRecordOf (rid classId teacherId date sid : String) (e : Entry) : UpdateRecord :=
  { id := rid
    student_id := sid
    class_id := classId
    teacher_id := teacherId
    attendance_date := date
    status := e.status
    notes := if e.notes = "" then none else some e.notes }

/-- The record-preparation loop of `handleSaveAttendance` (lines 188-214):
iterate over `Object.entries(attendance)`, skip entries without a status, and
push each remaining entry onto `recordsToUpdate` when
`existingRecords[studentId]` is truthy and onto `recordsToSave` otherwise. -/
def computeSubmission (classId teacherId date : String)
    (attendance : List (String × Entry)) (existingRecords : List (String × String)) :
    List RecordData × List UpdateRecord :=
  attendance.foldl
    (fun acc p =>
      if p.2.status = "" then acc
      else if jsTruthyStr (objGet existingRecords p.1) then
        (acc.1, acc.2 ++
          [updateRecordOf ((objGet existingRecords p.1).getD "") classId teacherId date p.1 p.2])
      else (acc.1 ++ [recordDataOf classId teacherId date p.1 p.2], acc.2))
    ([], [])

/-- The record-to-map conversion of the load effect (lines 98-108): build
`existingMap[student_id] = id` and
`attendanceMap[student_id] = { status, notes: notes || '' }` for every fetched
attendance record. -/
def buildMaps (attendanceData : List AttendanceRow) :
    List (String × String) × List (String × Entry) :=
  attendanceData.foldl
    (fun acc record =>
      (objSet acc.1 record.student_id record.id,
       objSet acc.2 record.student_id { status := record.status, notes := record.notes.getD "" }))
    ([], [])

/-- The confirmed branch of `handleQuickMark` (lines 157-164): rebuild the
attendance map from scratch over the roster, giving every student the chosen
status and `attendance[student.id]?.notes || ''` as notes. -/
def quickMarkAttendance (students : List StudentRow) (attendance : List (String × Entry))
    (status : String) : List (String × Entry) :=
  students.foldl
    (fun acc student =>
      objSet acc student.id
        { status := status, notes := ((objGet attendance student.id).map Entry.notes).getD "" })
    []

/-- The post-save rebuild of `existingRecords` (lines 249-257): students with a
status and no prior record map to the placeholder `'new'`; students with a
prior (truthy) record keep their old record id; everyone else is dropped. -/
def rebuildExisting (attendance : List (String × Entry))
    (existingRecords : List (String × String)) : List (String × String) :=
  attendance.foldl
    (fun acc p =>
      if p.2.status ≠ "" ∧ ¬ jsTruthyStr (objGet existingRecords p.1) then
        objSet acc p.1 "new"
      else if jsTruthyStr (objGet existingRecords p.1) then
        objSet acc p.1 ((objGet existingRecords p.1).getD "")
      else acc)
    []

/-- A call issued to the remote store while persisting a submission: either the
single batched insert of all new records, or an update of one record by id
(`status`, `notes`, `updated_at`). -/
inductive DbCall where
  | insertBatch : List RecordData → DbCall
  | updateOne : String → String → Option String → String → DbCall
deriving DecidableEq

/-- The update call issued for one element of `recordsToUpdate` (lines 229-237). -/
def updCallOf (now : String) (r : UpdateRecord) : DbCall :=
  DbCall.updateOne r.id r.status r.notes now

/-- The sequential update loop of `handleSaveAttendance` (lines 229-243): one
awaited update call per record, in order, aborting (throwing) at the first
error. `updateRes` is the remote store's success verdict per record. Returns
the calls actually issued and whether the loop completed without error. -/
def runUpdates (now : String) (updateRes : UpdateRecord → Bool) :
    List UpdateRecord → List DbCall × Bool
  | [] => ([], true)
  | r :: rest =>
    if updateRes r then
      let next := runUpdates now updateRes rest
      (updCallOf now r :: next.1, next.2)
    else ([updCallOf now r], false)

/-- The persistence step of `handleSaveAttendance` (lines 216-243): one batched
insert call when `recordsToSave` is non-empty (aborting on error), then the
sequential update loop. Returns the issued calls and overall success. -/
def persistSubmission (now : String) (insertRes : Bool) (updateRes : UpdateRecord → Bool)
    (ins : List RecordData) (upd : List UpdateRecord) : List DbCall × Bool :=
  if ins.isEmpty then runUpdates now updateRes upd
  else if insertRes then
    let next := runUpdates now updateRes upd
    (DbCall.insertBatch ins :: next.1, next.2)
  else ([DbCall.insertBatch ins], false)

/-- The component state held by `AttendancePage` (the `useState` hooks relevant
to the reconciliation flow). -/
structure ComponentState where
  selectedClass : Option ClassRow
  classes : List ClassRow
  students : List StudentRow
  attendance : List (String × Entry)
  loading : Bool
  saving : Bool
  currentDate : String
  existingRecords : List (String × String)
  hasChanges : Bool
deriving DecidableEq

/-- The two editable fields of an attendance entry. -/
inductive AttField where
  | status
  | notes
deriving DecidableEq

/-- Overwrite one field of an entry (`{...prev[studentId], [field]: value}`). -/
def entrySet (e : Entry) : AttField → String → Entry
  | AttField.status, v => { e with status := v }
  | AttField.notes, v => { e with notes := v }

/-- `handleAttendanceChange` (lines 138-147): merge the new field value into
the student's entry (an absent entry spreads as the empty entry) and mark the
state dirty. -/
def handleAttendanceChange (sid : String) (f : AttField) (v : String)
    (st : ComponentState) : ComponentState :=
  { st with
    attendance :=
      objSet st.attendance sid (entrySet ((objGet st.attendance sid).getD ⟨"", ""⟩) f v)
    hasChanges := true }

/-- `handleQuickMark` (lines 149-168): no-op without a selected class or with
an empty roster; otherwise, gated on the `window.confirm` answer, rebuild the
attendance map over the roster and mark the state dirty. -/
def handleQuickMark (confirmed : Bool) (status : String) (st : ComponentState) :
    ComponentState :=
  if st.selectedClass.isNone ∨ st.students.isEmpty then st
  else if confirmed then
    { st with
      attendance := quickMarkAttendance st.students st.attendance status
      hasChanges := true }
  else st

/-- `handleClassChange` (lines 125-136): when dirty, a declined confirmation
aborts; otherwise select `classes.find(cls => cls.id === newClassId)`. -/
def handleClassChange (confirmed : Bool) (newClassId : String) (st : ComponentState) :
    ComponentState :=
  if st.hasChanges ∧ ¬ confirmed then st
  else { st with selectedClass := st.classes.find? (fun cls => cls.id = newClassId) }

/-- The date input's `onChange` (line 373): `setCurrentDate(e.target.value)`,
with no confirmation and no guard on unsaved changes. -/
def handleDateChange (newDate : String) (st : ComponentState) : ComponentState :=
  { st with currentDate := newDate }

/-- `loadStudentsAndAttendance` (lines 61-120) as a function of the two fetch
results: without a selected class it only clears `loading`; a failed roster
fetch surfaces a toast and returns early; a failed attendance fetch surfaces a
toast after the roster was already stored; on success both maps are rebuilt
from the fetched records and the dirty flag is cleared. Returns the new state
and the emitted error toasts. -/
def loadStudentsAndAttendance (studentsRes : Except String (List StudentRow))
    (attRes : Except String (List AttendanceRow)) (st : ComponentState) :
    ComponentState × List String :=
  match st.selectedClass with
  | none => ({ st with loading := false }, [])
  | some _ =>
    match studentsRes with
    | Except.error _ => ({ st with loading := false }, ["Failed to load students"])
    | Except.ok studentsData =>
      match attRes with
      | Except.error _ =>
        ({ st with students := studentsData, loading := false },
         ["Failed to load existing attendance"])
      | Except.ok attendanceData =>
        let maps := buildMaps attendanceData
        ({ st with
            students := studentsData
            existingRecords := maps.1
            attendance := maps.2
            hasChanges := false
            loading := false }, [])

/-- `handleSaveAttendance` (lines 170-266) as a function of the confirm answer,
the signed-in user, the clock, and the remote store's verdicts: aborts on
missing class/user or a declined unmarked-students confirmation; otherwise
computes the submission, persists it, and on success clears the dirty flag and
rebuilds `existingRecords`; on failure leaves both untouched. Returns the new
state, the issued calls, and the toasts. -/
def handleSaveAttendance (confirmed : Bool) (userId : Option String) (now : String)
    (insertRes : Bool) (updateRes : UpdateRecord → Bool) (st : ComponentState) :
    ComponentState × List DbCall × List String :=
  match st.selectedClass, userId with
  | some cls, some uid =>
    let unmarked :=
      st.students.filter (fun s => ! jsTruthyStr ((objGet st.attendance s.id).map Entry.status))
    if unmarked.length > 0 ∧ ¬ confirmed then (st, [], [])
    else
      let sub := computeSubmission cls.id uid st.currentDate st.attendance st.existingRecords
      let run := persistSubmission now insertRes updateRes sub.1 sub.2
      if run.2 then
        ({ st with
            saving := false
            hasChanges := false
            existingRecords := rebuildExisting st.attendance st.existingRecords },
         run.1,
         ["Attendance saved successfully!"])
      else ({ st with saving := false }, run.1, ["Failed to save attendance. Please try again."])
  | _, _ => (st, [], ["Missing required data"])

/-- The remote store's tables, as far as the two load queries read them. -/
structure Db where
  students : List StudentRow
  attendanceRecords : List AttendanceRow

/-- The roster query (lines 70-75): active students of the class, ordered by
last name ascending. -/
def queryStudents (db : Db) (classId : String) : List StudentRow :=
  (db.students.filter (fun s => s.class_id = classId ∧ s.is_active)).mergeSort
    (fun a b => a.last_name ≤ b.last_name)

/-- The attendance query (lines 86-90): records of the class on the date. -/
def queryAttendance (db : Db) (classId date : String) : List AttendanceRow :=
  db.attendanceRecords.filter (fun r => r.class_id = classId ∧ r.attendance_date = date)

/-- Selector describing which attendance entries the save loop turns into
inserts, and into which record. -/
def insSel (classId teacherId date : String) (existingRecords : List (String × String))
    (p : String × Entry) : Option RecordData :=
  if p.2.status = "" then none
  else if jsTruthyStr (objGet existingRecords p.1) then none
  else some (recordDataOf classId teacherId date p.1 p.2)

/-- Selector describing which attendance entries the save loop turns into
updates, and into which record. -/
def updSel (classId teacherId date : String) (existingRecords : List (String × String))
    (p : String × Entry) : Option UpdateRecord :=
  if p.2.status = "" then none
  else if jsTruthyStr (objGet existingRecords p.1) then
    some (updateRecordOf ((objGet existingRecords p.1).getD "") classId teacherId date p.1 p.2)
  else none

/-- Example data: an active student of class `c1`. -/
def alice : StudentRow :=
  { id := "1", student_number := "S1", first_name := "Alice", last_name := "Smith",
    class_id := "c1", is_active := true }

/-- Example data: a second active student of class `c1`. -/
def bob : StudentRow :=
  { id := "2", student_number := "S2", first_name := "Bob", last_name := "Jones",
    class_id := "c1", is_active := true }

/-- Example data: an inactive (soft-deleted) student of class `c1`. -/
def charlieInactive : StudentRow :=
  { id := "3", student_number := "S3", first_name := "Charlie", last_name := "Brown",
    class_id := "c1", is_active := false }

/-- Example data: the selected class. -/
def mathClass : ClassRow := { id := "c1", name := "Math" }

/-- Example data: a saved attendance record of the inactive student for the
selected class and date. -/
def recCharlie : AttendanceRow :=
  { id := "99", student_id := "3", class_id := "c1", attendance_date := "2024-01-15",
    status := "absent", notes := none }

/-- Example data: a store whose only student is inactive but has a saved
attendance record. -/
def dbInactive : Db :=
  { students := [charlieInactive], attendanceRecords := [recCharlie] }

/-- Example data: a component state for the selected class with two edited
entries, dirty flag still clear. -/
def baseState : ComponentState :=
  { selectedClass := some mathClass
    classes := [mathClass]
    students := [alice, bob]
    attendance := [("1", { status := "present", notes := "" }),
                   ("2", { status := "late", notes := "sick" })]
    loading := false
    saving := false
    currentDate := "2024-01-15"
    existingRecords := []
    hasChanges := false }

/-- Example data: `baseState` with unsaved edits (dirty flag set). -/
def dirtyState : ComponentState := { baseState with hasChanges := true }

/-- Example data: a freshly loaded clean state for the selected class. -/
def cleanState : ComponentState :=
  { baseState with attendance := [], hasChanges := false }

lemma objGet_objSet_self {α : Type} (m : List (String × α)) (k : String) (v : α) :
    objGet (objSet m k v) k = some v := by
  induction m with
  | nil => simp [objGet, objSet]
  | cons p rest ih =>
    by_cases h : p.1 = k
    · simp [objSet, h, objGet]
    · simp [objSet, h, objGet, ih]

lemma objGet_objSet_ne {α : Type} (m : List (String × α)) (k k' : String) (v : α)
    (h : k' ≠ k) : objGet (objSet m k v) k' = objGet m k' := by
  induction m with
  | nil => simp [objGet, objSet, Ne.symm h]
  | cons p rest ih =>
    by_cases hp : p.1 = k
    · subst hp
      simp [objSet, objGet, Ne.symm h]
    · simp [objSet, hp, objGet, ih]

lemma objGet_objSet_isSome {α : Type} (m : List (String × α)) (k k' : String) (v : α) :
    (objGet (objSet m k v) k').isSome ↔ (k' = k ∨ (objGet m k').isSome) := by
  by_cases h : k' = k
  · subst h
    simp [objGet_objSet_self]
  · simp [objGet_objSet_ne m k k' v h, h]

lemma foldl_objSet_notmem {γ α : Type} (key : γ → String) (val : γ → α) :
    ∀ (l : List γ) (init : List (String × α)) (sid : String), sid ∉ l.map key →
      objGet (l.foldl (fun acc x => objSet acc (key x) (val x)) init) sid = objGet init sid := by
  intro l
  induction l with
  | nil => intro init sid _; rfl
  | cons y rest ih =>
    intro init sid h
    simp only [List.map_cons, List.mem_cons, not_or] at h
    rw [List.foldl_cons, ih _ _ h.2, objGet_objSet_ne _ _ _ _ h.1]

lemma foldl_objSet_mem_nodup {γ α : Type} (key : γ → String) (val : γ → α) :
    ∀ (l : List γ) (init : List (String × α)) (x : γ), (l.map key).Nodup → x ∈ l →
      objGet (l.foldl (fun acc y => objSet acc (key y) (val y)) init) (key x) = some (val x) := by
  intro l
  induction l with
  | nil => intro _ x _ hx; cases hx
  | cons y rest ih =>
    intro init x hnd hx
    rw [List.map_cons, List.nodup_cons] at hnd
    rw [List.foldl_cons]
    rcases List.mem_cons.mp hx with rfl | hx'
    · rw [foldl_objSet_notmem key val rest _ _ hnd.1, objGet_objSet_self]
    · exact ih _ x hnd.2 hx'

lemma foldl_objSet_isSome {γ α : Type} (key : γ → String) (val : γ → α) :
    ∀ (l : List γ) (init : List (String × α)) (sid : String),
      (objGet (l.foldl (fun acc y => objSet acc (key y) (val y)) init) sid).isSome ↔
        (sid ∈ l.map key ∨ (objGet init sid).isSome) := by
  intro l
  induction l with
  | nil => intro init sid; simp
  | cons y rest ih =>
    intro init sid
    rw [List.foldl_cons, ih, objGet_objSet_isSome]
    simp only [List.map_cons, List.mem_cons]
    tauto

lemma foldl_objSet_mem_keyval {γ α : Type} (key : γ → String) (f : String → α) :
    ∀ (l : List γ) (init : List (String × α)) (sid : String), sid ∈ l.map key →
      objGet (l.foldl (fun acc y => objSet acc (key y) (f (key y))) init) sid = some (f sid) := by
  intro l
  induction l with
  | nil => intro _ sid h; cases h
  | cons y rest ih =>
    intro init sid h
    rw [List.foldl_cons]
    by_cases hr : sid ∈ rest.map key
    · exact ih _ sid hr
    · have hy : sid = key y := by
        rcases List.mem_cons.mp h with h1 | h2
        · exact h1
        · exact absurd h2 hr
      rw [foldl_objSet_notmem key (fun y => f (key y)) rest _ _ hr, hy, objGet_objSet_self]

lemma objGet_mem {α : Type} :
    ∀ (m : List (String × α)) (k : String) (v : α), objGet m k = some v → (k, v) ∈ m := by
  intro m
  induction m with
  | nil => intro k v h; cases h
  | cons p rest ih =>
    intro k v h
    rw [objGet] at h
    by_cases hp : p.1 = k
    · rw [if_pos hp] at h
      injection h with hv
      subst hv
      subst hp
      exact List.mem_cons.mpr (Or.inl rfl)
    · rw [if_neg hp] at h
      exact List.mem_cons_of_mem _ (ih k v h)

lemma objGet_of_nodup_mem {α : Type} :
    ∀ (m : List (String × α)) (k : String) (v : α), (m.map Prod.fst).Nodup → (k, v) ∈ m →
      objGet m k = some v := by
  intro m
  induction m with
  | nil => intro k v _ h; cases h
  | cons p rest ih =>
    intro k v hnd h
    rw [List.map_cons, List.nodup_cons] at hnd
    rcases List.mem_cons.mp h with rfl | h'
    · simp [objGet]
    · have hk : p.1 ≠ k := by
        intro e
        exact hnd.1 (e ▸ (List.mem_map_of_mem Prod.fst h'))
      rw [objGet, if_neg hk]
      exact ih k v hnd.2 h'

lemma computeSubmission_foldl_aux (classId teacherId date : String)
    (existingRecords : List (String × String)) :
    ∀ (attendance : List (String × Entry)) (acc : List RecordData × List UpdateRecord),
      attendance.foldl
        (fun acc p =>
          if p.2.status = "" then acc
          else if jsTruthyStr (objGet existingRecords p.1) then
            (acc.1, acc.2 ++
              [updateRecordOf ((objGet existingRecords p.1).getD "") classId teacherId date p.1 p.2])
          else (acc.1 ++ [recordDataOf classId teacherId date p.1 p.2], acc.2)) acc =
      (acc.1 ++ attendance.filterMap (insSel classId teacherId date existingRecords),
       acc.2 ++ attendance.filterMap (updSel classId teacherId date existingRecords)) := by
  intro attendance
  induction attendance with
  | nil => intro acc; simp
  | cons p rest ih =>
    intro acc
    rw [List.foldl_cons, List.filterMap_cons, List.filterMap_cons]
    by_cases h1 : p.2.status = ""
    · rw [ih]
      simp [insSel, updSel, h1]
    · by_cases h2 : jsTruthyStr (objGet existingRecords p.1) = true
      · rw [if_neg h1, if_pos h2, ih]
        simp [insSel, updSel, h1, h2]
      · rw [if_neg h1, if_neg h2, ih]
        simp [insSel, updSel, h1, h2]

/-- The save loop is the pair of filter-maps given by the two selectors. -/
lemma computeSubmission_eq (classId teacherId date : String)
    (attendance : List (String × Entry)) (existingRecords : List (String × String)) :
    computeSubmission classId teacherId date attendance existingRecords =
      (attendance.filterMap (insSel classId teacherId date existingRecords),
       attendance.filterMap (updSel classId teacherId date existingRecords)) := by
  rw [computeSubmission, computeSubmission_foldl_aux]
  simp

lemma foldl_prod {β δ γ : Type} (f : β → γ → β) (g : δ → γ → δ) :
    ∀ (l : List γ) (a : β) (b : δ),
      l.foldl (fun acc x => (f acc.1 x, g acc.2 x)) (a, b) = (l.foldl f a, l.foldl g b) := by
  intro l
  induction l with
  | nil => intro a b; rfl
  | cons x rest ih =>
    intro a b
    rw [List.foldl_cons, List.foldl_cons, List.foldl_cons]
    exact ih (f a x) (g b x)

/-- The load effect's one pass over the fetched records builds the two maps
independently. -/
lemma buildMaps_eq (attendanceData : List AttendanceRow) :
    buildMaps attendanceData =
      (attendanceData.foldl (fun m r => objSet m r.student_id r.id) [],
       attendanceData.foldl
         (fun m r => objSet m r.student_id { status := r.status, notes := r.notes.getD "" }) []) := by
  rw [buildMaps]
  exact foldl_prod (fun m (r : AttendanceRow) => objSet m r.student_id r.id)
    (fun m (r : AttendanceRow) =>
      objSet m r.student_id ({ status := r.status, notes := r.notes.getD "" } : Entry))
    attendanceData [] []

lemma rebuildExisting_foldl_notmem (existingRecords : List (String × String)) :
    ∀ (attendance : List (String × Entry)) (init : List (String × String)) (sid : String),
      sid ∉ attendance.map Prod.fst →
      objGet (attendance.foldl
        (fun acc p =>
          if p.2.status ≠ "" ∧ ¬ jsTruthyStr (objGet existingRecords p.1) then
            objSet acc p.1 "new"
          else if jsTruthyStr (objGet existingRecords p.1) then
            objSet acc p.1 ((objGet existingRecords p.1).getD "")
          else acc) init) sid = objGet init sid := by
  intro attendance
  induction attendance with
  | nil => intro init sid _; rfl
  | cons q rest ih =>
    intro init sid h
    simp only [List.map_cons, List.mem_cons, not_or] at h
    rw [List.foldl_cons, ih _ _ h.2]
    by_cases h1 : q.2.status ≠ "" ∧ ¬ jsTruthyStr (objGet existingRecords q.1)
    · rw [if_pos h1, objGet_objSet_ne _ _ _ _ h.1]
    · rw [if_neg h1]
      by_cases h2 : jsTruthyStr (objGet existingRecords q.1) = true
      · rw [if_pos h2, objGet_objSet_ne _ _ _ _ h.1]
      · rw [if_neg h2]

lemma rebuild_step_ne (existingRecords init : List (String × String))
    (q : String × Entry) (sid : String) (h : sid ≠ q.1) :
    objGet
      (if q.2.status ≠ "" ∧ ¬ jsTruthyStr (objGet existingRecords q.1) then
        objSet init q.1 "new"
      else if jsTruthyStr (objGet existingRecords q.1) then
        objSet init q.1 ((objGet existingRecords q.1).getD "")
      else init) sid = objGet init sid := by
  by_cases h1 : q.2.status ≠ "" ∧ ¬ jsTruthyStr (objGet existingRecords q.1)
  · rw [if_pos h1, objGet_objSet_ne _ _ _ _ h]
  · rw [if_neg h1]
    by_cases h2 : jsTruthyStr (objGet existingRecords q.1) = true
    · rw [if_pos h2, objGet_objSet_ne _ _ _ _ h]
    · rw [if_neg h2]

lemma rebuildExisting_foldl_mem_nodup (existingRecords : List (String × String)) :
    ∀ (attendance : List (String × Entry)) (init : List (String × String)) (p : String × Entry),
      (attendance.map Prod.fst).Nodup → p ∈ attendance →
      objGet (attendance.foldl
        (fun acc p =>
          if p.2.status ≠ "" ∧ ¬ jsTruthyStr (objGet existingRecords p.1) then
            objSet acc p.1 "new"
          else if jsTruthyStr (objGet existingRecords p.1) then
            objSet acc p.1 ((objGet existingRecords p.1).getD "")
          else acc) init) p.1 =
      (if p.2.status ≠ "" ∧ ¬ jsTruthyStr (objGet existingRecords p.1) then some "new"
       else if jsTruthyStr (objGet existingRecords p.1) then
         some ((objGet existingRecords p.1).getD "")
       else objGet init p.1) := by
  intro attendance
  induction attendance with
  | nil => intro _ p _ hp; cases hp
  | cons q rest ih =>
    intro init p hnd hp
    rw [List.map_cons, List.nodup_cons] at hnd
    rw [List.foldl_cons]
    rcases List.mem_cons.mp hp with rfl | hp'
    · rw [rebuildExisting_foldl_notmem existingRecords rest _ _ hnd.1]
      by_cases h1 : p.2.status ≠ "" ∧ ¬ jsTruthyStr (objGet existingRecords p.1)
      · rw [if_pos h1, if_pos h1, objGet_objSet_self]
      · rw [if_neg h1, if_neg h1]
        by_cases h2 : jsTruthyStr (objGet existingRecords p.1) = true
        · rw [if_pos h2, if_pos h2, objGet_objSet_self]
        · rw [if_neg h2, if_neg h2]
    · have hpq : p.1 ≠ q.1 := fun e => hnd.1 (e ▸ List.mem_map_of_mem Prod.fst hp')
      rw [ih _ p hnd.2 hp']
      by_cases h1 : p.2.status ≠ "" ∧ ¬ jsTruthyStr (objGet existingRecords p.1)
      · rw [if_pos h1, if_pos h1]
      · rw [if_neg h1, if_neg h1]
        by_cases h2 : jsTruthyStr (objGet existingRecords p.1) = true
        · rw [if_pos h2, if_pos h2]
        · rw [if_neg h2, if_neg h2]
          exact rebuild_step_ne existingRecords init q p.1 hpq

/-- Access into the rebuilt `existingRecords` map after a save, for any student
present in the attendance map (whose keys are unique, as they come from a JS
object): newly inserted students map to `'new'`, previously existing students
keep their record id, and students with neither are absent. -/
lemma rebuildExisting_get (attendance : List (String × Entry))
    (existingRecords : List (String × String)) (p : String × Entry)
    (hnd : (attendance.map Prod.fst).Nodup) (hp : p ∈ attendance) :
    objGet (rebuildExisting attendance existingRecords) p.1 =
      (if p.2.status ≠ "" ∧ ¬ jsTruthyStr (objGet existingRecords p.1) then some "new"
       else if jsTruthyStr (objGet existingRecords p.1) then
         some ((objGet existingRecords p.1).getD "")
       else none) :=
  rebuildExisting_foldl_mem_nodup existingRecords attendance [] p hnd hp

lemma jsTruthyStr_some {v : String} (h : v ≠ "") : jsTruthyStr (some v) = true := by
  simp [jsTruthyStr, h]

lemma jsTruthyStr_none : jsTruthyStr none = false := by
  simp [jsTruthyStr]

lemma nodup_keys_unique {α : Type} {m : List (String × α)} {k : String} {v v' : α}
    (hnd : (m.map Prod.fst).Nodup) (h1 : (k, v) ∈ m) (h2 : (k, v') ∈ m) : v = v' := by
  have e1 := objGet_of_nodup_mem m k v hnd h1
  have e2 := objGet_of_nodup_mem m k v' hnd h2
  rw [e1] at e2
  injection e2

/-- Claim C1: the submission computed at save time contains exactly the
attendance entries with a non-empty status, partitioned by presence in the
existing-id map: entries whose student id has a (record-id) value in
`existingRecords` become updates carrying that record id, status and notes;
all other entries with a status become inserts carrying student, class,
teacher, date, status and notes; entries with an unset/empty status appear in
neither list. Hypotheses: the attendance map has unique keys (it is a JS
object) and the existing-id map's values are record ids or `'new'`, never the
empty string. -/
theorem C1_computeSubmission_partition (classId teacherId date : String)
    (attendance : List (String × Entry)) (existingRecords : List (String × String))
    (hvals : ∀ p ∈ existingRecords, p.2 ≠ "")
    (hnd : (attendance.map Prod.fst).Nodup) :
    (∀ sid e, (sid, e) ∈ attendance → e.status ≠ "" →
      ∀ rid, objGet existingRecords sid = some rid →
        updateRecordOf rid classId teacherId date sid e ∈
            (computeSubmission classId teacherId date attendance existingRecords).2 ∧
          ∀ r ∈ (computeSubmission classId teacherId date attendance existingRecords).1,
            r.student_id ≠ sid) ∧
    (∀ sid e, (sid, e) ∈ attendance → e.status ≠ "" →
      objGet existingRecords sid = none →
        recordDataOf classId teacherId date sid e ∈
            (computeSubmission classId teacherId date attendance existingRecords).1 ∧
          ∀ r ∈ (computeSubmission classId teacherId date attendance existingRecords).2,
            r.student_id ≠ sid) ∧
    (∀ sid e, (sid, e) ∈ attendance → e.status = "" →
        (∀ r ∈ (computeSubmission classId teacherId date attendance existingRecords).1,
          r.student_id ≠ sid) ∧
        (∀ r ∈ (computeSubmission classId teacherId date attendance existingRecords).2,
          r.student_id ≠ sid)) ∧
    (∀ r ∈ (computeSubmission classId teacherId date attendance existingRecords).1,
      ∃ e, (r.student_id, e) ∈ attendance ∧ e.status ≠ "") ∧
    (∀ r ∈ (computeSubmission classId teacherId date attendance existingRecords).2,
      ∃ e, (r.student_id, e) ∈ attendance ∧ e.status ≠ "") := by
  simp only [computeSubmission_eq]
  have insOf : ∀ r ∈ attendance.filterMap (insSel classId teacherId date existingRecords),
      ∃ p ∈ attendance, p.2.status ≠ "" ∧ ¬ jsTruthyStr (objGet existingRecords p.1) = true ∧
        r = recordDataOf classId teacherId date p.1 p.2 := by
    intro r hr
    rcases List.mem_filterMap.mp hr with ⟨p, hpmem, hsel⟩
    by_cases h1 : p.2.status = ""
    · rw [insSel, if_pos h1] at hsel
      cases hsel
    · by_cases h2 : jsTruthyStr (objGet existingRecords p.1) = true
      · rw [insSel, if_neg h1, if_pos h2] at hsel
        cases hsel
      · rw [insSel, if_neg h1, if_neg h2] at hsel
        injection hsel with he
        exact ⟨p, hpmem, h1, h2, he.symm⟩
  have updOf : ∀ r ∈ attendance.filterMap (updSel classId teacherId date existingRecords),
      ∃ p ∈ attendance, p.2.status ≠ "" ∧ jsTruthyStr (objGet existingRecords p.1) = true ∧
        r = updateRecordOf ((objGet existingRecords p.1).getD "") classId teacherId date
              p.1 p.2 := by
    intro r hr
    rcases List.mem_filterMap.mp hr with ⟨p, hpmem, hsel⟩
    by_cases h1 : p.2.status = ""
    · rw [updSel, if_pos h1] at hsel
      cases hsel
    · by_cases h2 : jsTruthyStr (objGet existingRecords p.1) = true
      · rw [updSel, if_neg h1, if_pos h2] at hsel
        injection hsel with he
        exact ⟨p, hpmem, h1, h2, he.symm⟩
      · rw [updSel, if_neg h1, if_neg h2] at hsel
        cases hsel
  have truthy_of_some : ∀ sid rid, objGet existingRecords sid = some rid →
      jsTruthyStr (objGet existingRecords sid) = true := by
    intro sid rid hg
    rw [hg]
    exact jsTruthyStr_some (hvals (sid, rid) (objGet_mem existingRecords sid rid hg))
  refine ⟨?_, ?_, ?_, ?_, ?_⟩
  · intro sid e hmem hst rid hg
    constructor
    · refine List.mem_filterMap.mpr ⟨(sid, e), hmem, ?_⟩
      rw [updSel, if_neg hst, if_pos (truthy_of_some sid rid hg)]
      rw [hg]
      rfl
    · intro r hr hrs
      rcases insOf r hr with ⟨p, hpmem, hp1, hp2, hp3⟩
      have hps : p.1 = sid := by
        rw [hp3] at hrs
        exact hrs
      rw [hps] at hp2
      exact hp2 (truthy_of_some sid rid hg)
  · intro sid e hmem hst hg
    constructor
    · refine List.mem_filterMap.mpr ⟨(sid, e), hmem, ?_⟩
      rw [insSel, if_neg hst, if_neg (by rw [hg, jsTruthyStr_none]; exact Bool.false_ne_true)]
    · intro r hr hrs
      rcases updOf r hr with ⟨p, hpmem, hp1, hp2, hp3⟩
      have hps : p.1 = sid := by
        rw [hp3] at hrs
        exact hrs
      rw [hps, hg, jsTruthyStr_none] at hp2
      exact Bool.false_ne_true hp2
  · intro sid e hmem hst
    constructor
    · intro r hr hrs
      rcases insOf r hr with ⟨p, hpmem, hp1, _, hp3⟩
      have hps : p.1 = sid := by
        rw [hp3] at hrs
        exact hrs
      have hpe : p = (sid, p.2) := by
        rw [← hps]
      have : p.2 = e := nodup_keys_unique hnd (hpe ▸ hpmem) hmem
      rw [this, hst] at hp1
      exact hp1 rfl
    · intro r hr hrs
      rcases updOf r hr with ⟨p, hpmem, hp1, _, hp3⟩
      have hps : p.1 = sid := by
        rw [hp3] at hrs
        exact hrs
      have hpe : p = (sid, p.2) := by
        rw [← hps]
      have : p.2 = e := nodup_keys_unique hnd (hpe ▸ hpmem) hmem
      rw [this, hst] at hp1
      exact hp1 rfl
  · intro r hr
    rcases insOf r hr with ⟨p, hpmem, hp1, _, hp3⟩
    refine ⟨p.2, ?_, hp1⟩
    have : r.student_id = p.1 := by
      rw [hp3]
      rfl
    rw [this]
    exact hpmem
  · intro r hr
    rcases updOf r hr with ⟨p, hpmem, hp1, _, hp3⟩
    refine ⟨p.2, ?_, hp1⟩
    have : r.student_id = p.1 := by
      rw [hp3]
      rfl
    rw [this]
    exact hpmem

/-- Witness for C1 at a concrete input: with Bob (id 2) having record 99 and a
non-empty status, his entry is an update; Alice (id 1), unknown to the
existing-id map, is an insert. -/
theorem C1_computeSubmission_partition_witness :
    updateRecordOf "99" "c1" "t1" "2024-01-15" "2" { status := "late", notes := "sick" } ∈
        (computeSubmission "c1" "t1" "2024-01-15"
          [("1", { status := "present", notes := "" }),
           ("2", { status := "late", notes := "sick" }),
           ("3", { status := "", notes := "" })] [("2", "99")]).2 ∧
    recordDataOf "c1" "t1" "2024-01-15" "1" { status := "present", notes := "" } ∈
        (computeSubmission "c1" "t1" "2024-01-15"
          [("1", { status := "present", notes := "" }),
           ("2", { status := "late", notes := "sick" }),
           ("3", { status := "", notes := "" })] [("2", "99")]).1 := by
  have h := C1_computeSubmission_partition "c1" "t1" "2024-01-15"
    [("1", { status := "present", notes := "" }),
     ("2", { status := "late", notes := "sick" }),
     ("3", { status := "", notes := "" })] [("2", "99")]
    (by decide) (by decide)
  exact ⟨(h.1 "2" { status := "late", notes := "sick" } (by decide) (by decide) "99"
            (by decide)).1,
         (h.2.1 "1" { status := "present", notes := "" } (by decide) (by decide)
            (by decide)).1⟩

/-- Claim C2: building the editable state from the fetched existing records
gives every student of a fetched record an entry with that record's status and
notes (with a null note mapped to the empty string), gives students with no
fetched record no entry, and every key of the existing-id map is a key of the
editable map; on a successful load the component installs exactly these two
maps. The fetched records have unique student ids (the store enforces at most
one record per student and date). -/
theorem C2_buildEditableState (attendanceData : List AttendanceRow)
    (hnd : (attendanceData.map AttendanceRow.student_id).Nodup) :
    (∀ r ∈ attendanceData,
      objGet (buildMaps attendanceData).2 r.student_id =
        some { status := r.status, notes := r.notes.getD "" }) ∧
    (∀ sid, sid ∉ attendanceData.map AttendanceRow.student_id →
      objGet (buildMaps attendanceData).2 sid = none) ∧
    (∀ sid, (objGet (buildMaps attendanceData).1 sid).isSome →
      (objGet (buildMaps attendanceData).2 sid).isSome) ∧
    (∀ st : ComponentState, st.selectedClass.isSome = true → ∀ studentsData,
      ((loadStudentsAndAttendance (Except.ok studentsData) (Except.ok attendanceData)
          st).1).attendance = (buildMaps attendanceData).2 ∧
      ((loadStudentsAndAttendance (Except.ok studentsData) (Except.ok attendanceData)
          st).1).existingRecords = (buildMaps attendanceData).1) := by
  have hlink : ∀ st : ComponentState, st.selectedClass.isSome = true → ∀ studentsData,
      ((loadStudentsAndAttendance (Except.ok studentsData) (Except.ok attendanceData)
          st).1).attendance = (buildMaps attendanceData).2 ∧
      ((loadStudentsAndAttendance (Except.ok studentsData) (Except.ok attendanceData)
          st).1).existingRecords = (buildMaps attendanceData).1 := by
    intro st hsel studentsData
    rcases Option.isSome_iff_exists.mp hsel with ⟨c, hc⟩
    simp [loadStudentsAndAttendance, hc]
  rw [buildMaps_eq] at hlink ⊢
  refine ⟨?_, ?_, ?_, hlink⟩
  · intro r hr
    exact foldl_objSet_mem_nodup AttendanceRow.student_id
      (fun r => ({ status := r.status, notes := r.notes.getD "" } : Entry))
      attendanceData [] r hnd hr
  · intro sid h
    exact foldl_objSet_notmem AttendanceRow.student_id
      (fun r => ({ status := r.status, notes := r.notes.getD "" } : Entry))
      attendanceData [] sid h
  · intro sid h
    have h1 := (foldl_objSet_isSome AttendanceRow.student_id (fun r => r.id)
      attendanceData [] sid).mp h
    rcases h1 with h1 | h1
    · exact (foldl_objSet_isSome AttendanceRow.student_id
        (fun r => ({ status := r.status, notes := r.notes.getD "" } : Entry))
        attendanceData [] sid).mpr (Or.inl h1)
    · simp [objGet] at h1

/-- Witness for C2 at a concrete input: one fetched record for student 3 with a
null note produces exactly one entry, student 1 gets none, and the existing-id
key 3 is an editable key. -/
theorem C2_buildEditableState_witness :
    objGet (buildMaps [recCharlie]).2 "3" = some { status := "absent", notes := "" } ∧
    objGet (buildMaps [recCharlie]).2 "1" = none ∧
    (objGet (buildMaps [recCharlie]).2 "3").isSome := by
  have h := C2_buildEditableState [recCharlie] (by decide)
  refine ⟨h.1 recCharlie (by decide), h.2.1 "1" (by decide), h.2.2.1 "3" (by decide)⟩

/-- Claim C3: the confirmed bulk action (`handleQuickMark`, guards passed)
gives every student of the roster the chosen status while keeping the notes
value that student had before (`attendance[student.id]?.notes || ''`), and it
marks the state dirty. -/
theorem C3_quickMark_bulk (st : ComponentState) (status : String)
    (hcls : st.selectedClass.isSome = true) (hstu : st.students ≠ []) :
    (∀ s ∈ st.students,
      objGet (handleQuickMark true status st).attendance s.id =
        some { status := status,
               notes := ((objGet st.attendance s.id).map Entry.notes).getD "" }) ∧
    (handleQuickMark true status st).hasChanges = true := by
  have hguard : ¬ (st.selectedClass.isNone = true ∨ st.students.isEmpty = true) := by
    intro h
    rcases h with h | h
    · rcases Option.isSome_iff_exists.mp hcls with ⟨c, hc⟩
      rw [hc] at h
      exact Bool.false_ne_true h
    · rw [List.isEmpty_iff] at h
      exact hstu h
  rw [handleQuickMark, if_neg hguard, if_pos (rfl : (true : Bool) = true)]
  constructor
  · intro s hs
    exact foldl_objSet_mem_keyval StudentRow.id
      (fun sid => ({ status := status,
                     notes := ((objGet st.attendance sid).map Entry.notes).getD "" } : Entry))
      st.students [] s.id (List.mem_map_of_mem StudentRow.id hs)
  · rfl

/-- Witness for C3 at a concrete input: bulk-marking `present` on the dirty
example state gives Bob `{status := present, notes := sick}` (his prior note
survives) and sets the dirty flag. -/
theorem C3_quickMark_bulk_witness :
    objGet (handleQuickMark true "present" dirtyState).attendance "2" =
      some { status := "present", notes := "sick" } ∧
    (handleQuickMark true "present" dirtyState).hasChanges = true := by
  have h := C3_quickMark_bulk dirtyState "present" (by decide) (by decide)
  exact ⟨h.1 bob (by decide), h.2⟩

/-- Claim C10: the bulk action replaces the whole editable map — after
`handleQuickMark`'s confirmed branch the map has a key exactly for each
student id of the current roster, so entries of students no longer on the
roster are gone. -/
theorem C10_quickMark_replaces_map (students : List StudentRow)
    (attendance : List (String × Entry)) (status : String) (sid : String) :
    (objGet (quickMarkAttendance students attendance status) sid).isSome ↔
      sid ∈ students.map StudentRow.id := by
  have h := foldl_objSet_isSome StudentRow.id
    (fun s => ({ status := status,
                 notes := ((objGet attendance s.id).map Entry.notes).getD "" } : Entry))
    students [] sid
  constructor
  · intro hs
    rcases h.mp hs with h1 | h1
    · exact h1
    · simp [objGet] at h1
  · intro hs
    exact h.mpr (Or.inl hs)

/-- Claim C9: after a successful save, the rebuilt existing-id map has a
(truthy) key for every student whose editable entry has a non-empty status;
students newly inserted in that save (non-empty status, not previously truthy
in the existing-id map) are mapped to the placeholder `'new'`, and a
subsequent save over the same attendance map classifies them as updates whose
record id is `'new'`. The attendance map has unique keys (it is a JS object). -/
theorem C9_rebuildExisting_post_save (classId teacherId date : String)
    (attendance : List (String × Entry)) (existingRecords : List (String × String))
    (hnd : (attendance.map Prod.fst).Nodup) :
    (∀ sid e, (sid, e) ∈ attendance → e.status ≠ "" →
      jsTruthyStr (objGet (rebuildExisting attendance existingRecords) sid) = true) ∧
    (∀ sid e, (sid, e) ∈ attendance → e.status ≠ "" →
      ¬ jsTruthyStr (objGet existingRecords sid) = true →
      objGet (rebuildExisting attendance existingRecords) sid = some "new") ∧
    (∀ sid e, (sid, e) ∈ attendance → e.status ≠ "" →
      ¬ jsTruthyStr (objGet existingRecords sid) = true →
      updateRecordOf "new" classId teacherId date sid e ∈
        (computeSubmission classId teacherId date attendance
          (rebuildExisting attendance existingRecords)).2) := by
  have hget : ∀ sid e, (sid, e) ∈ attendance →
      objGet (rebuildExisting attendance existingRecords) sid =
        (if e.status ≠ "" ∧ ¬ jsTruthyStr (objGet existingRecords sid) then some "new"
         else if jsTruthyStr (objGet existingRecords sid) then
           some ((objGet existingRecords sid).getD "")
         else none) := by
    intro sid e hmem
    exact rebuildExisting_get attendance existingRecords (sid, e) hnd hmem
  have hnew : ∀ sid e, (sid, e) ∈ attendance → e.status ≠ "" →
      ¬ jsTruthyStr (objGet existingRecords sid) = true →
      objGet (rebuildExisting attendance existingRecords) sid = some "new" := by
    intro sid e hmem hst hex
    rw [hget sid e hmem, if_pos ⟨hst, hex⟩]
  have htruthy : ∀ sid e, (sid, e) ∈ attendance → e.status ≠ "" →
      jsTruthyStr (objGet (rebuildExisting attendance existingRecords) sid) = true := by
    intro sid e hmem hst
    by_cases hex : jsTruthyStr (objGet existingRecords sid) = true
    · rw [hget sid e hmem, if_neg (by intro h; exact h.2 hex), if_pos hex]
      rw [jsTruthyStr] at hex ⊢
      simpa using hex
    · rw [hnew sid e hmem hst hex]
      exact jsTruthyStr_some (by decide)
  refine ⟨htruthy, hnew, ?_⟩
  intro sid e hmem hst hex
  rw [computeSubmission_eq]
  refine List.mem_filterMap.mpr ⟨(sid, e), hmem, ?_⟩
  rw [updSel, if_neg hst, if_pos (htruthy sid e hmem hst)]
  rw [hnew sid e hmem hst hex]
  rfl

/-- Witness for C9 at a concrete input: Alice (id 1, status present, no prior
record) becomes a truthy `'new'` key after the rebuild, and the next save
would issue an update whose record id is `'new'`. -/
theorem C9_rebuildExisting_post_save_witness :
    objGet (rebuildExisting dirtyState.attendance []) "1" = some "new" ∧
    updateRecordOf "new" "c1" "t1" "2024-01-15" "1" { status := "present", notes := "" } ∈
      (computeSubmission "c1" "t1" "2024-01-15" dirtyState.attendance
        (rebuildExisting dirtyState.attendance [])).2 := by
  have h := C9_rebuildExisting_post_save "c1" "t1" "2024-01-15"
    dirtyState.attendance [] (by decide)
  exact ⟨h.2.1 "1" { status := "present", notes := "" } (by decide) (by decide) (by decide),
         h.2.2 "1" { status := "present", notes := "" } (by decide) (by decide) (by decide)⟩

lemma runUpdates_ok (now : String) (updateRes : UpdateRecord → Bool) :
    ∀ upd : List UpdateRecord, (∀ u ∈ upd, updateRes u = true) →
      runUpdates now updateRes upd = (upd.map (updCallOf now), true) := by
  intro upd
  induction upd with
  | nil => intro _; rfl
  | cons r rest ih =>
    intro h
    have hr := h r (List.mem_cons_self r rest)
    have hrest := ih (fun u hu => h u (List.mem_cons_of_mem r hu))
    simp [runUpdates, hr, hrest]

lemma runUpdates_fail (now : String) (updateRes : UpdateRecord → Bool) :
    ∀ (pre : List UpdateRecord) (u : UpdateRecord) (post : List UpdateRecord),
      (∀ x ∈ pre, updateRes x = true) → updateRes u = false →
      runUpdates now updateRes (pre ++ u :: post) =
        (pre.map (updCallOf now) ++ [updCallOf now u], false) := by
  intro pre
  induction pre with
  | nil =>
    intro u post _ hu
    simp [runUpdates, hu]
  | cons r rest ih =>
    intro u post h hu
    have hr := h r (List.mem_cons_self r rest)
    have hrest := ih u post (fun x hx => h x (List.mem_cons_of_mem r hx)) hu
    simp [runUpdates, hr, hrest]

/-- Claim C5: persisting a submission issues at most one batched insert call
(carrying all new records) before anything else, then one update call per
record, sequentially in order; a failed insert stops everything (no update
call is issued), a failed update stops the batch right after the failing
call, and no compensating/rollback call exists (the call trace is exactly the
prefix up to and including the failure — `DbCall` has no delete/undo form). -/
theorem C5_persistSubmission_sequencing (now : String) (insertRes : Bool)
    (updateRes : UpdateRecord → Bool) (ins : List RecordData) (upd : List UpdateRecord) :
    ((insertRes = true ∨ ins = []) → (∀ u ∈ upd, updateRes u = true) →
      persistSubmission now insertRes updateRes ins upd =
        ((if ins.isEmpty then [] else [DbCall.insertBatch ins]) ++ upd.map (updCallOf now),
         true)) ∧
    (ins ≠ [] → insertRes = false →
      persistSubmission now insertRes updateRes ins upd = ([DbCall.insertBatch ins], false)) ∧
    (∀ pre u post, upd = pre ++ u :: post → (∀ x ∈ pre, updateRes x = true) →
      updateRes u = false → (insertRes = true ∨ ins = []) →
      persistSubmission now insertRes updateRes ins upd =
        ((if ins.isEmpty then [] else [DbCall.insertBatch ins]) ++
          pre.map (updCallOf now) ++ [updCallOf now u], false)) := by
  refine ⟨?_, ?_, ?_⟩
  · intro hins hok
    have hupd := runUpdates_ok now updateRes upd hok
    cases ins with
    | nil => simp [persistSubmission, hupd]
    | cons a l =>
      rcases hins with hins | hins
      · simp [persistSubmission, hins, hupd]
      · simp at hins
  · intro hne hif
    cases ins with
    | nil => exact absurd rfl hne
    | cons a l => simp [persistSubmission, hif]
  · intro pre u post hsplit hpre hu hins
    subst hsplit
    have hfail := runUpdates_fail now updateRes pre u post hpre hu
    cases ins with
    | nil => simp [persistSubmission, hfail]
    | cons a l =>
      rcases hins with hins | hins
      · simp [persistSubmission, hins, hfail]
      · simp at hins

/-- Witness for C5 at a concrete input: one insert plus three updates where
the second update fails — the trace is the batched insert, then the first
update, then the failing second update, and nothing else. -/
theorem C5_persistSubmission_sequencing_witness :
    persistSubmission "T" true (fun u => u.id != "bad")
        [recordDataOf "c1" "t1" "2024-01-15" "1" { status := "present", notes := "" }]
        [updateRecordOf "7" "c1" "t1" "2024-01-15" "4" { status := "late", notes := "" },
         updateRecordOf "bad" "c1" "t1" "2024-01-15" "5" { status := "absent", notes := "" },
         updateRecordOf "9" "c1" "t1" "2024-01-15" "6" { status := "present", notes := "" }] =
      ((if ([recordDataOf "c1" "t1" "2024-01-15" "1"
              { status := "present", notes := "" }] : List RecordData).isEmpty then []
        else [DbCall.insertBatch
          [recordDataOf "c1" "t1" "2024-01-15" "1" { status := "present", notes := "" }]]) ++
        [updateRecordOf "7" "c1" "t1" "2024-01-15" "4"
          { status := "late", notes := "" }].map (updCallOf "T") ++
        [updCallOf "T" (updateRecordOf "bad" "c1" "t1" "2024-01-15" "5"
          { status := "absent", notes := "" })], false) :=
  (C5_persistSubmission_sequencing "T" true (fun u => u.id != "bad")
      [recordDataOf "c1" "t1" "2024-01-15" "1" { status := "present", notes := "" }]
      [updateRecordOf "7" "c1" "t1" "2024-01-15" "4" { status := "late", notes := "" },
       updateRecordOf "bad" "c1" "t1" "2024-01-15" "5" { status := "absent", notes := "" },
       updateRecordOf "9" "c1" "t1" "2024-01-15" "6"
         { status := "present", notes := "" }]).2.2
    [updateRecordOf "7" "c1" "t1" "2024-01-15" "4" { status := "late", notes := "" }]
    (updateRecordOf "bad" "c1" "t1" "2024-01-15" "5" { status := "absent", notes := "" })
    [updateRecordOf "9" "c1" "t1" "2024-01-15" "6" { status := "present", notes := "" }]
    rfl (by decide) (by decide) (Or.inl rfl)

/-- Counterexample for C4: changing the date while the state is dirty is NOT
confirmation-gated — the date input's `onChange` calls `setCurrentDate`
directly (the handler takes no confirm answer because the source asks for
none), so with unsaved changes the selection still changes; the claimed
"declined confirmation is a no-op" behaviour does not exist on the date path. -/
theorem C4_date_switch_counterexample :
    dirtyState.hasChanges = true ∧
    (handleDateChange "2024-01-16" dirtyState).currentDate ≠ dirtyState.currentDate ∧
    (handleDateChange "2024-01-16" dirtyState).currentDate = "2024-01-16" := by
  decide

/-- Claim C4 amended: while dirty, changing the active class triggers a
confirmation and declining it is a no-op; accepting selects the new class, and
changing the active date is applied immediately with no confirmation; in
either case the subsequent load effect discards the editable map, rebuilding
it from the data fetched for the newly selected (class, date) pair and
clearing the dirty flag. -/
theorem C4_switch_guard_amended (st : ComponentState) :
    (st.hasChanges = true → ∀ newClassId, handleClassChange false newClassId st = st) ∧
    (∀ newClassId, (handleClassChange true newClassId st).selectedClass =
      st.classes.find? (fun cls => cls.id = newClassId)) ∧
    (∀ newDate, (handleDateChange newDate st).currentDate = newDate ∧
      (handleDateChange newDate st).hasChanges = st.hasChanges) ∧
    (st.selectedClass.isSome = true → ∀ studentsData attendanceData,
      ((loadStudentsAndAttendance (Except.ok studentsData) (Except.ok attendanceData)
          st).1).attendance = (buildMaps attendanceData).2 ∧
      ((loadStudentsAndAttendance (Except.ok studentsData) (Except.ok attendanceData)
          st).1).hasChanges = false) := by
  refine ⟨?_, ?_, ?_, ?_⟩
  · intro h newClassId
    rw [handleClassChange, if_pos ⟨h, by simp⟩]
  · intro newClassId
    rw [handleClassChange, if_neg (fun habs => habs.2 rfl)]
  · intro newDate
    exact ⟨rfl, rfl⟩
  · intro hsel studentsData attendanceData
    rcases Option.isSome_iff_exists.mp hsel with ⟨c, hc⟩
    simp [loadStudentsAndAttendance, hc]

/-- Witness for the amended C4 at a concrete input: on the dirty example state
a declined class switch changes nothing, and a successful reload rebuilds the
editable map from the newly fetched records. -/
theorem C4_switch_guard_amended_witness :
    handleClassChange false "c2" dirtyState = dirtyState ∧
    ((loadStudentsAndAttendance (Except.ok []) (Except.ok [recCharlie])
        dirtyState).1).attendance = (buildMaps [recCharlie]).2 := by
  have h := C4_switch_guard_amended dirtyState
  exact ⟨h.1 (by decide) "c2", (h.2.2.2 (by decide) [] [recCharlie]).1⟩

/-- Counterexample for C6: an operation other than `setField`/`bulkSetStatus`
and other than a successful save also writes the dirty flag — the load effect
(`setHasChanges(false)` at the end of `loadStudentsAndAttendance`) resets a
dirty state to clean when it rebuilds the maps, e.g. after a date change with
unsaved edits. -/
theorem C6_dirty_flag_counterexample :
    dirtyState.hasChanges = true ∧
    ((loadStudentsAndAttendance (Except.ok [alice, bob]) (Except.ok [])
        dirtyState).1).hasChanges = false := by
  decide

/-- Claim C6 amended: the dirty flag is set (to dirty) by exactly
`handleAttendanceChange` and the confirmed, guard-passing `handleQuickMark`;
it is cleared by a fully successful `handleSaveAttendance` and also by every
successful run of the load effect; every other operation (declined or guarded
bulk mark, class/date switch, failed save, failed load) leaves it unchanged. -/
theorem C6_dirty_flag_machine_amended (st : ComponentState) :
    (∀ sid f v, (handleAttendanceChange sid f v st).hasChanges = true) ∧
    (∀ status, st.selectedClass.isNone = false → st.students.isEmpty = false →
      (handleQuickMark true status st).hasChanges = true) ∧
    (∀ status, (handleQuickMark false status st).hasChanges = st.hasChanges) ∧
    (∀ confirmed newClassId,
      (handleClassChange confirmed newClassId st).hasChanges = st.hasChanges) ∧
    (∀ newDate, (handleDateChange newDate st).hasChanges = st.hasChanges) ∧
    (∀ confirmed userId now insertRes updateRes,
      ((handleSaveAttendance confirmed userId now insertRes updateRes st).1.hasChanges = false ∧
        (handleSaveAttendance confirmed userId now insertRes updateRes st).2.2 =
          ["Attendance saved successfully!"]) ∨
      (handleSaveAttendance confirmed userId now insertRes updateRes st).1.hasChanges =
        st.hasChanges) ∧
    (∀ studentsRes attRes,
      ((loadStudentsAndAttendance studentsRes attRes st).1.hasChanges = false ∧
        (loadStudentsAndAttendance studentsRes attRes st).2 = []) ∨
      (loadStudentsAndAttendance studentsRes attRes st).1.hasChanges = st.hasChanges) := by
  refine ⟨?_, ?_, ?_, ?_, ?_, ?_, ?_⟩
  · intro sid f v
    rfl
  · intro status hcls hstu
    rw [handleQuickMark,
      if_neg (by rw [hcls, hstu]; simp),
      if_pos (rfl : (true : Bool) = true)]
  · intro status
    rw [handleQuickMark]
    by_cases hg : st.selectedClass.isNone = true ∨ st.students.isEmpty = true
    · rw [if_pos hg]
    · rw [if_neg hg, if_neg (by simp)]
  · intro confirmed newClassId
    rw [handleClassChange]
    by_cases hg : (st.hasChanges = true) ∧ ¬ (confirmed = true)
    · rw [if_pos hg]
    · rw [if_neg hg]
  · intro newDate
    rfl
  · intro confirmed userId now insertRes updateRes
    cases hsc : st.selectedClass with
    | none =>
      right
      simp [handleSaveAttendance, hsc]
    | some cls =>
      cases huid : userId with
      | none =>
        right
        simp [handleSaveAttendance, hsc, huid]
      | some uid =>
        simp only [handleSaveAttendance, hsc, huid]
        split
        · right
          rfl
        · split
          · left
            exact ⟨rfl, rfl⟩
          · right
            rfl
  · intro studentsRes attRes
    cases hsc : st.selectedClass with
    | none =>
      right
      simp [loadStudentsAndAttendance, hsc]
    | some cls =>
      cases studentsRes with
      | error e =>
        right
        simp [loadStudentsAndAttendance, hsc]
      | ok studentsData =>
        cases attRes with
        | error e =>
          right
          simp [loadStudentsAndAttendance, hsc]
        | ok attendanceData =>
          left
          simp [loadStudentsAndAttendance, hsc]

/-- Witness for the amended C6 at a concrete input: on the dirty example state
a field edit keeps the flag dirty, a confirmed bulk mark sets it, and a date
change leaves it untouched. -/
theorem C6_dirty_flag_machine_amended_witness :
    (handleAttendanceChange "1" AttField.status "absent" dirtyState).hasChanges = true ∧
    (handleQuickMark true "present" dirtyState).hasChanges = true ∧
    (handleDateChange "2024-01-16" dirtyState).hasChanges = dirtyState.hasChanges := by
  have h := C6_dirty_flag_machine_amended dirtyState
  exact ⟨h.1 "1" AttField.status "absent",
         h.2.1 "present" (by decide) (by decide),
         h.2.2.2.2.1 "2024-01-16"⟩

/-- Counterexample for C7: an inactive student with a saved attendance record
for the selected (class, date) pair DOES get an editable entry — the editable
map is built from the fetched attendance records, which are not filtered by
the student's active flag; only the roster excludes inactive students. -/
theorem C7_inactive_entry_counterexample :
    charlieInactive.is_active = false ∧
    charlieInactive ∈ dbInactive.students ∧
    objGet ((loadStudentsAndAttendance (Except.ok (queryStudents dbInactive "c1"))
        (Except.ok (queryAttendance dbInactive "c1" "2024-01-15")) cleanState).1).attendance
      "3" = some { status := "absent", notes := "" } := by
  have hq : queryStudents dbInactive "c1" = [] := by
    simp only [queryStudents]
    rw [show dbInactive.students.filter (fun s => s.class_id = "c1" ∧ s.is_active) = []
      from by decide]
    exact List.mergeSort_nil
  rw [hq]
  exact ⟨rfl, by decide, by decide⟩

/-- Claim C7 amended: the roster excludes inactive students and students
outside the selected class, and every editable entry built by the load
corresponds to a fetched attendance record of the selected class and date —
but a student who is inactive (or has moved class) while having such a record
still receives an entry. -/
theorem C7_load_scope_amended (db : Db) (cls : ClassRow) (date : String)
    (st : ComponentState) (hsel : st.selectedClass = some cls) :
    (∀ s ∈ queryStudents db cls.id, s.is_active = true ∧ s.class_id = cls.id) ∧
    (∀ sid,
      (objGet ((loadStudentsAndAttendance (Except.ok (queryStudents db cls.id))
          (Except.ok (queryAttendance db cls.id date)) st).1).attendance sid).isSome →
      ∃ r ∈ db.attendanceRecords, r.student_id = sid ∧ r.class_id = cls.id ∧
        r.attendance_date = date) := by
  constructor
  · intro s hs
    simp only [queryStudents, List.mem_mergeSort, List.mem_filter,
      decide_eq_true_eq] at hs
    exact ⟨hs.2.2, hs.2.1⟩
  · intro sid h
    have hload : ((loadStudentsAndAttendance (Except.ok (queryStudents db cls.id))
        (Except.ok (queryAttendance db cls.id date)) st).1).attendance =
        (buildMaps (queryAttendance db cls.id date)).2 := by
      simp [loadStudentsAndAttendance, hsel]
    rw [hload, buildMaps_eq] at h
    have h2 := (foldl_objSet_isSome AttendanceRow.student_id
      (fun r => ({ status := r.status, notes := r.notes.getD "" } : Entry))
      (queryAttendance db cls.id date) [] sid).mp h
    rcases h2 with h2 | h2
    · rcases List.mem_map.mp h2 with ⟨r, hr, hrid⟩
      simp only [queryAttendance, List.mem_filter, decide_eq_true_eq] at hr
      exact ⟨r, hr.1, hrid, hr.2.1, hr.2.2⟩
    · simp [objGet] at h2

/-- Witness for the amended C7 at a concrete input: the entry for student 3
built by the load over the inactive-student store really does come from a
fetched record of class `c1` on the selected date. -/
theorem C7_load_scope_amended_witness :
    ∃ r ∈ dbInactive.attendanceRecords, r.student_id = "3" ∧ r.class_id = "c1" ∧
      r.attendance_date = "2024-01-15" := by
  have h := C7_load_scope_amended dbInactive mathClass "2024-01-15" cleanState (by decide)
  exact h.2 "3" (by decide)

/-- Counterexample for C8: when a fetch of the load fails the editable map is
NOT left empty — it is left as it was, here the non-empty map of the dirty
example state (the error paths return before any `setAttendance`). -/
theorem C8_load_failure_counterexample :
    dirtyState.attendance ≠ [] ∧
    ((loadStudentsAndAttendance (Except.ok [alice, bob]) (Except.error "network")
        dirtyState).1).attendance = dirtyState.attendance ∧
    ((loadStudentsAndAttendance (Except.ok [alice, bob]) (Except.error "network")
        dirtyState).1).attendance ≠ [] := by
  decide

/-- Claim C8 amended: if the roster fetch or the attendance fetch fails, the
failure is surfaced as an error toast and the editable map and existing-id map
are left unchanged (hence empty only when they were empty before the load);
no partial entries are installed from the failed load. -/
theorem C8_load_failure_amended (st : ComponentState)
    (studentsRes : Except String (List StudentRow))
    (attRes : Except String (List AttendanceRow))
    (hsel : st.selectedClass.isSome = true)
    (hfail : (∃ e, studentsRes = Except.error e) ∨ (∃ e, attRes = Except.error e)) :
    ((loadStudentsAndAttendance studentsRes attRes st).1).attendance = st.attendance ∧
    ((loadStudentsAndAttendance studentsRes attRes st).1).existingRecords =
      st.existingRecords ∧
    (loadStudentsAndAttendance studentsRes attRes st).2 ≠ [] := by
  rcases Option.isSome_iff_exists.mp hsel with ⟨c, hc⟩
  rcases hfail with ⟨e, he⟩ | ⟨e, he⟩
  · subst he
    simp [loadStudentsAndAttendance, hc]
  · subst he
    cases studentsRes with
    | error e2 => simp [loadStudentsAndAttendance, hc]
    | ok sd => simp [loadStudentsAndAttendance, hc]

/-- Witness for the amended C8 at a concrete input: a failed attendance fetch
over the dirty example state leaves both maps untouched and emits a toast. -/
theorem C8_load_failure_amended_witness :
    ((loadStudentsAndAttendance (Except.ok [alice, bob]) (Except.error "boom")
        dirtyState).1).attendance = dirtyState.attendance ∧
    (loadStudentsAndAttendance (Except.ok [alice, bob]) (Except.error "boom")
        dirtyState).2 ≠ [] := by
  have h := C8_load_failure_amended dirtyState (Except.ok [alice, bob])
    (Except.error "boom") (by decide) (Or.inr ⟨"boom", rfl⟩)
  exact ⟨h.1, h.2.2⟩
